import Mathlib

/-!
Verification development for `airflow/providers/mongo/hooks/mongo.py`
(`MongoHook`): a shallow embedding of the hook's state and operations,
together with theorems about its connection-string construction, client
lifecycle, and driver pass-through behaviour.

Modelling conventions:
* Python scalar values appearing in connection extras and documents are
  modelled by `JVal` with Python truthiness.
* Python `dict`s (extras, documents, kwargs) are association lists with
  unique keys; `dictGet` / `dictPop` / `dictUpdate` mirror `d.get`,
  `d.pop`, `d.update` on such dicts.
* `urllib.parse.quote_plus` and `urllib.parse.urlunsplit` are embedded
  byte- and branch-faithfully from CPython.
* The pymongo driver is abstract: a `MongoClient` records the URI and the
  keyword options handed to its constructor; collection-level driver calls
  are a function `driver : DriverOp → Except ε ρ` (an `Except.error`
  models the driver raising).  Python `KeyError` / `IndexError` raised by
  the hook itself are injected by parameters `keyError` / `indexError`.
* `pymongo.__version__ >= "4.0.0"` is the boolean parameter `ge4`.
-/

namespace MongoSpec

/-- A Python scalar value as found in `extra_dejson`, documents and kwargs. -/
inductive JVal where
  | bool (b : Bool)
  | str (s : String)
  | num (n : Int)
  | null
deriving DecidableEq, Repr

/-- Python truthiness of a `JVal`. -/
def JVal.truthy : JVal → Bool
  | .bool b => b
  | .str s => s != ""
  | .num n => n != 0
  | .null => false

/-- A Python dict with string keys, as an association list with unique keys. -/
abbrev Dict := List (String × JVal)

/-- A BSON document (a Python dict). -/
abbrev Doc := Dict

/-- Extra keyword arguments forwarded verbatim (`**kwargs`). -/
abbrev Kwargs := Dict

/-- `d.get(k)`: the value stored at key `k`, if present. -/
def dictGet : Dict → String → Option JVal
  | [], _ => none
  | kv :: t, k => if kv.fst = k then some kv.snd else dictGet t k

/-- Truthiness of `d.get(k, False)`: `False` (falsy) when the key is absent. -/
def truthyGet (d : Dict) (k : String) : Bool :=
  match dictGet d k with
  | some v => v.truthy
  | none => false

/-- The dict after `d.pop(k, ...)`: the entry at `k` removed (dict keys
are unique, so at most one entry matches). -/
def dictPop : Dict → String → Dict
  | [], _ => []
  | kv :: t, k => if kv.fst = k then dictPop t k else kv :: dictPop t k

/-- `d.update({k: v})`: overwrite the entry at `k` in place when present
(dict keys are unique), else append the new entry at the end. -/
def dictUpdate : Dict → String → JVal → Dict
  | [], k, v => [(k, v)]
  | kv :: t, k, v => if kv.fst = k then (kv.fst, v) :: t else kv :: dictUpdate t k v

/-- Byte kept verbatim by `urllib.parse.quote`: ASCII alphanumerics and
`_`, `.`, `-`, `~` (CPython's `_ALWAYS_SAFE`). -/
def safeByte (b : Nat) : Bool :=
  (65 ≤ b && b ≤ 90) || (97 ≤ b && b ≤ 122) || (48 ≤ b && b ≤ 57) ||
    b == 95 || b == 46 || b == 45 || b == 126

/-- UTF-8 encoding of one character, as byte values. -/
def utf8Bytes (c : Char) : List Nat :=
  let n := c.toNat
  if n < 128 then [n]
  else if n < 2048 then [192 + n / 64, 128 + n % 64]
  else if n < 65536 then [224 + n / 4096, 128 + (n / 64) % 64, 128 + n % 64]
  else [240 + n / 262144, 128 + (n / 4096) % 64, 128 + (n / 64) % 64, 128 + n % 64]

/-- Uppercase hexadecimal digit for `n < 16`. -/
def hexDigit (n : Nat) : Char :=
  if n < 10 then Char.ofNat (48 + n) else Char.ofNat (55 + n)

/-- How `quote_plus` renders one byte: space becomes `+`, safe bytes stand
for themselves, all others are percent-encoded in uppercase hex. -/
def quotePlusByte (b : Nat) : String :=
  if b == 32 then "+"
  else if safeByte b then String.singleton (Char.ofNat b)
  else "%" ++ String.singleton (hexDigit (b / 16)) ++ String.singleton (hexDigit (b % 16))

/-- `urllib.parse.quote_plus` with its default `safe=''`. -/
def quotePlus (s : String) : String :=
  String.join (((s.data.map utf8Bytes).flatten).map quotePlusByte)

/-- `urllib.parse.urlunsplit` on a 5-tuple, branch-for-branch from CPython
(string truthiness and slicing expressed on the character list). -/
def urlunsplit (scheme netloc path query fragment : String) : String :=
  let url := path
  let url :=
    if netloc.data ≠ [] ∨ (url.data ≠ [] ∧ url.data.take 2 = ['/', '/']) then
      let url := if url.data ≠ [] ∧ url.data.take 1 ≠ ['/'] then "/" ++ url else url
      "//" ++ netloc ++ url
    else url
  let url := if scheme.data ≠ [] then scheme ++ ":" ++ url else url
  let url := if query.data ≠ [] then url ++ "?" ++ query else url
  if fragment.data ≠ [] then url ++ "#" ++ fragment else url

/-- `ssl.CERT_NONE` (the integer 0), used pre-pymongo-4 for `ssl_cert_reqs`. -/
def CERT_NONE : JVal := .num 0

/-- The stored Airflow connection record backing the hook
(`self.connection`, as returned by `BaseHook.get_connection`). -/
structure Connection where
  host : String
  port : Option Nat
  login : Option String
  password : Option String
  schema : String
  extraDejson : Dict
deriving DecidableEq, Repr

/-- An abstract `pymongo.MongoClient`: the URI and the keyword options the
constructor was handed (`MongoClient(self.uri, **options)`). -/
structure MongoClient where
  uri : String
  options : Dict
deriving DecidableEq, Repr

/-- The mutable state of a `MongoHook` instance. -/
structure MongoHook where
  mongoConnId : String
  connection : Connection
  extras : Dict
  client : Option MongoClient
  uri : String
deriving DecidableEq, Repr

/-- `MongoHook._create_uri`, applied to the connection record and the
current `self.extras`.  Returns the URI together with the extras after
`self.extras.pop("srv", False)` (the pop mutates `self.extras`). -/
def createUri (conn : Connection) (extras : Dict) : String × Dict :=
  let srv := (dictGet extras "srv").getD (.bool false)
  let extras := dictPop extras "srv"
  let scheme := if srv.truthy then "mongodb+srv" else "mongodb"
  let netloc := conn.host
  let netloc :=
    match conn.login, conn.password with
    | some l, some p => quotePlus l ++ ":" ++ quotePlus p ++ "@" ++ netloc
    | _, _ => netloc
  let netloc :=
    match conn.port with
    | some port => if port ≠ 0 then netloc ++ ":" ++ toString port else netloc
    | none => netloc
  let path := "/" ++ conn.schema
  (urlunsplit scheme netloc path "" "", extras)

/-- `MongoHook.__init__`: stores the conn id, fetches the connection record
(`get_connection` is external; its result is the `conn` argument), copies
`extra_dejson` into `self.extras`, leaves `self.client = None` and builds
`self.uri` via `_create_uri` (which pops `srv` from `self.extras`). -/
def init (connId : String) (conn : Connection) : MongoHook :=
  let extras := conn.extraDejson
  let r := createUri conn extras
  { mongoConnId := connId, connection := conn, extras := r.2,
    client := none, uri := r.1 }

/-- The SSL shim applied by `get_conn` to the options dict before handing
it to the client constructor: when `options.get("ssl", False)` is truthy,
`tlsAllowInvalidCertificates=True` is added on pymongo >= 4.0.0, else
`ssl_cert_reqs=CERT_NONE`. -/
def sslShim (ge4 : Bool) (options : Dict) : Dict :=
  if truthyGet options "ssl" then
    if ge4 then dictUpdate options "tlsAllowInvalidCertificates" (.bool true)
    else dictUpdate options "ssl_cert_reqs" CERT_NONE
  else options

/-- `MongoHook.get_conn`: return the cached client if present; otherwise
take `options = self.extras` (an alias, so the shim's updates persist in
`self.extras`), apply the SSL shim, construct the client and cache it.
`ge4` is the value of `pymongo.__version__ >= "4.0.0"`. -/
def getConn (ge4 : Bool) (h : MongoHook) : MongoClient × MongoHook :=
  match h.client with
  | some c => (c, h)
  | none =>
    let options := sslShim ge4 h.extras
    let c : MongoClient := { uri := h.uri, options := options }
    (c, { h with client := some c, extras := options })

/-- `MongoHook.__exit__`: the exception triple is ignored; an open client
is closed and the slot reset.  The second component lists the clients that
were closed by this call. -/
def exitHook (_excType _excVal _excTb : Option Unit) (h : MongoHook) :
    MongoHook × List MongoClient :=
  match h.client with
  | some c => ({ h with client := none }, [c])
  | none => (h, [])

/-- Python `mongo_db or self.connection.schema` on an optional string:
`None` and the empty string are falsy. -/
def pyOrStr (a : Option String) (b : String) : String :=
  match a with
  | some s => if s == "" then b else s
  | none => b

/-- `MongoHook.get_collection`: resolve the database name, ensure the
client exists (`get_conn`), and name the collection
(`client.get_database(db).get_collection(coll)` is the pair `(db, coll)`). -/
def getCollection (ge4 : Bool) (h : MongoHook)
    (mongoCollection : String) (mongoDb : Option String) :
    (String × String) × MongoHook :=
  let db := pyOrStr mongoDb h.connection.schema
  ((db, mongoCollection), (getConn ge4 h).2)

/-- A `pymongo.ReplaceOne` bulk-write request
(`ReplaceOne(filter, replacement, upsert=..., collation=...)`).
Collations are opaque and modelled by an optional name. -/
structure ReplaceOneReq where
  filterDoc : Doc
  doc : Doc
  upsert : Bool
  collation : Option String
deriving DecidableEq, Repr

/-- One collection-level pymongo call, recorded with the database and
collection it is issued on and all forwarded arguments. -/
inductive DriverOp where
  | aggregate (db coll : String) (pipeline : List Doc) (kwargs : Kwargs)
  | findOne (db coll : String) (query : Doc) (projection : Option Doc) (kwargs : Kwargs)
  | find (db coll : String) (query : Doc) (projection : Option Doc) (kwargs : Kwargs)
  | insertOne (db coll : String) (doc : Doc) (kwargs : Kwargs)
  | insertMany (db coll : String) (docs : List Doc) (kwargs : Kwargs)
  | updateOne (db coll : String) (filterDoc updateDoc : Doc) (kwargs : Kwargs)
  | updateMany (db coll : String) (filterDoc updateDoc : Doc) (kwargs : Kwargs)
  | replaceOne (db coll : String) (filterDoc doc : Doc) (kwargs : Kwargs)
  | bulkWrite (db coll : String) (requests : List ReplaceOneReq) (kwargs : Kwargs)
  | deleteOne (db coll : String) (filterDoc : Doc) (kwargs : Kwargs)
  | deleteMany (db coll : String) (filterDoc : Doc) (kwargs : Kwargs)
deriving DecidableEq, Repr

/-- A Python list comprehension over `l` whose body may raise: elements are
evaluated left to right and the first raise aborts the whole list. -/
def exceptMap {ε α β : Type} (f : α → Except ε β) : List α → Except ε (List β)
  | [] => Except.ok []
  | a :: l =>
    match f a with
    | Except.error e => Except.error e
    | Except.ok b =>
      match exceptMap f l with
      | Except.error e => Except.error e
      | Except.ok bs => Except.ok (b :: bs)

section Operations

/- `driver` gives the outcome of each collection-level pymongo call:
`Except.error` models the driver raising.  `keyError k` is Python's
`KeyError(k)` and `indexError` an `IndexError`, raised by the hook itself;
they live in the same exception type `ε` as the driver's errors. -/
variable {ε ρ : Type} (driver : DriverOp → Except ε ρ)
  (keyError : String → ε) (indexError : ε) (ge4 : Bool)

/-- The result of one hook operation: what the call returns or raises, the
hook state afterwards, and the collection-level driver calls it issued. -/
abbrev OpResult (ε ρ : Type) := Except ε ρ × MongoHook × List DriverOp

/-- `MongoHook.aggregate`. -/
def aggregateM (h : MongoHook) (mongoCollection : String)
    (aggregateQuery : List Doc) (mongoDb : Option String) (kwargs : Kwargs) :
    OpResult ε ρ :=
  let r := getCollection ge4 h mongoCollection mongoDb
  let db := r.1.1
  let coll := r.1.2
  let h' := r.2
  let op := DriverOp.aggregate db coll aggregateQuery kwargs
  (driver op, h', [op])

/-- `MongoHook.find` (covering both the `find_one=True` and `find_one=False`
branches). -/
def findM (h : MongoHook) (mongoCollection : String) (query : Doc)
    (findOne : Bool) (mongoDb : Option String) (projection : Option Doc)
    (kwargs : Kwargs) : OpResult ε ρ :=
  let r := getCollection ge4 h mongoCollection mongoDb
  let db := r.1.1
  let coll := r.1.2
  let h' := r.2
  let op :=
    if findOne then DriverOp.findOne db coll query projection kwargs
    else DriverOp.find db coll query projection kwargs
  (driver op, h', [op])

/-- `MongoHook.insert_one`. -/
def insertOneM (h : MongoHook) (mongoCollection : String) (doc : Doc)
    (mongoDb : Option String) (kwargs : Kwargs) : OpResult ε ρ :=
  let r := getCollection ge4 h mongoCollection mongoDb
  let db := r.1.1
  let coll := r.1.2
  let h' := r.2
  let op := DriverOp.insertOne db coll doc kwargs
  (driver op, h', [op])

/-- `MongoHook.insert_many`. -/
def insertManyM (h : MongoHook) (mongoCollection : String) (docs : List Doc)
    (mongoDb : Option String) (kwargs : Kwargs) : OpResult ε ρ :=
  let r := getCollection ge4 h mongoCollection mongoDb
  let db := r.1.1
  let coll := r.1.2
  let h' := r.2
  let op := DriverOp.insertMany db coll docs kwargs
  (driver op, h', [op])

/-- `MongoHook.update_one`. -/
def updateOneM (h : MongoHook) (mongoCollection : String)
    (filterDoc updateDoc : Doc) (mongoDb : Option String) (kwargs : Kwargs) :
    OpResult ε ρ :=
  let r := getCollection ge4 h mongoCollection mongoDb
  let db := r.1.1
  let coll := r.1.2
  let h' := r.2
  let op := DriverOp.updateOne db coll filterDoc updateDoc kwargs
  (driver op, h', [op])

/-- `MongoHook.update_many`. -/
def updateManyM (h : MongoHook) (mongoCollection : String)
    (filterDoc updateDoc : Doc) (mongoDb : Option String) (kwargs : Kwargs) :
    OpResult ε ρ :=
  let r := getCollection ge4 h mongoCollection mongoDb
  let db := r.1.1
  let coll := r.1.2
  let h' := r.2
  let op := DriverOp.updateMany db coll filterDoc updateDoc kwargs
  (driver op, h', [op])

/-- `MongoHook.replace_one`: a falsy `filter_doc` (None or `{}`) is replaced
by `{"_id": doc["_id"]}`, where `doc["_id"]` raises `KeyError` if absent. -/
def replaceOneM (h : MongoHook) (mongoCollection : String) (doc : Doc)
    (filterDoc : Option Doc) (mongoDb : Option String) (kwargs : Kwargs) :
    OpResult ε ρ :=
  let r := getCollection ge4 h mongoCollection mongoDb
  let db := r.1.1
  let coll := r.1.2
  let h' := r.2
  let fd : Except ε Doc :=
    if filterDoc.getD [] = [] then
      match dictGet doc "_id" with
      | some v => Except.ok [("_id", v)]
      | none => Except.error (keyError "_id")
    else Except.ok (filterDoc.getD [])
  match fd with
  | Except.error e => (Except.error e, h', [])
  | Except.ok f =>
    let op := DriverOp.replaceOne db coll f doc kwargs
    (driver op, h', [op])

/-- `MongoHook.replace_many`: a falsy `filter_docs` (None or `[]`) is
replaced by `[{"_id": doc["_id"]} for doc in docs]`; then
`[ReplaceOne(filter_docs[i], docs[i], upsert=..., collation=...) for i in
range(len(docs))]` is submitted in a single `bulk_write`.  `filter_docs[i]`
raises `IndexError` when the supplied list is shorter than `docs`. -/
def replaceManyM (h : MongoHook) (mongoCollection : String) (docs : List Doc)
    (filterDocs : Option (List Doc)) (mongoDb : Option String)
    (upsert : Bool) (collation : Option String) (kwargs : Kwargs) :
    OpResult ε ρ :=
  let r := getCollection ge4 h mongoCollection mongoDb
  let db := r.1.1
  let coll := r.1.2
  let h' := r.2
  let fds : Except ε (List Doc) :=
    if (filterDocs.getD []) = [] then
      exceptMap (fun d =>
        match dictGet d "_id" with
        | some v => Except.ok [("_id", v)]
        | none => Except.error (keyError "_id")) docs
    else Except.ok (filterDocs.getD [])
  match fds with
  | Except.error e => (Except.error e, h', [])
  | Except.ok fds =>
    let reqs : Except ε (List ReplaceOneReq) :=
      exceptMap (fun i =>
        match fds[i]? with
        | some f =>
          Except.ok { filterDoc := f, doc := (docs[i]?).getD [],
                      upsert := upsert, collation := collation }
        | none => Except.error indexError) (List.range docs.length)
    match reqs with
    | Except.error e => (Except.error e, h', [])
    | Except.ok rs =>
      let op := DriverOp.bulkWrite db coll rs kwargs
      (driver op, h', [op])

/-- `MongoHook.delete_one`. -/
def deleteOneM (h : MongoHook) (mongoCollection : String) (filterDoc : Doc)
    (mongoDb : Option String) (kwargs : Kwargs) : OpResult ε ρ :=
  let r := getCollection ge4 h mongoCollection mongoDb
  let db := r.1.1
  let coll := r.1.2
  let h' := r.2
  let op := DriverOp.deleteOne db coll filterDoc kwargs
  (driver op, h', [op])

/-- `MongoHook.delete_many`. -/
def deleteManyM (h : MongoHook) (mongoCollection : String) (filterDoc : Doc)
    (mongoDb : Option String) (kwargs : Kwargs) : OpResult ε ρ :=
  let r := getCollection ge4 h mongoCollection mongoDb
  let db := r.1.1
  let coll := r.1.2
  let h' := r.2
  let op := DriverOp.deleteMany db coll filterDoc kwargs
  (driver op, h', [op])

end Operations

/-! ### Dictionary lemmas -/

theorem dictGet_dictPop_self (d : Dict) (k : String) :
    dictGet (dictPop d k) k = none := by
  induction d with
  | nil => rfl
  | cons kv t ih =>
    by_cases hk : kv.fst = k
    · simp [dictPop, hk, ih]
    · simp [dictPop, dictGet, hk, ih]

theorem dictGet_dictPop_ne (d : Dict) (k k' : String) (hne : k' ≠ k) :
    dictGet (dictPop d k) k' = dictGet d k' := by
  induction d with
  | nil => rfl
  | cons kv t ih =>
    by_cases hk : kv.fst = k
    · simp [dictPop, dictGet, hk, Ne.symm hne, ih]
    · by_cases hk' : kv.fst = k'
      · simp [dictPop, dictGet, hk, hk', hne]
      · simp [dictPop, dictGet, hk, hk', ih]

theorem dictGet_dictUpdate_self (d : Dict) (k : String) (v : JVal) :
    dictGet (dictUpdate d k v) k = some v := by
  induction d with
  | nil => simp [dictUpdate, dictGet]
  | cons kv t ih =>
    by_cases hk : kv.fst = k
    · simp [dictUpdate, dictGet, hk]
    · simp [dictUpdate, dictGet, hk, ih]

theorem dictGet_dictUpdate_ne (d : Dict) (k k' : String) (v : JVal)
    (hne : k' ≠ k) : dictGet (dictUpdate d k v) k' = dictGet d k' := by
  induction d with
  | nil => simp [dictUpdate, dictGet, Ne.symm hne]
  | cons kv t ih =>
    by_cases hk : kv.fst = k
    · simp [dictUpdate, dictGet, hk, Ne.symm hne]
    · simp [dictUpdate, dictGet, hk, ih]


/-! ### Sample values for concrete instantiations -/

/-- A sample connection record with all credential fields set and
`srv=true` among the extras. -/
def connEx : Connection :=
  { host := "host", port := some 27017, login := some "user",
    password := some "pass", schema := "db",
    extraDejson := [("srv", JVal.bool true)] }

/-- A sample driver client handle. -/
def clientEx : MongoClient := { uri := "mongodb://host:27017/db", options := [] }

/-- The hook freshly constructed on `connEx`. -/
def hookEx : MongoHook := init "mongo_default" connEx

/-- A hook whose client slot holds `clientEx`. -/
def hookOpenEx : MongoHook := { hookEx with client := some clientEx }

/-! ### URI construction lemmas -/

/-- `urlunsplit` on a non-empty scheme, a non-empty netloc, a path starting
with `/`, and empty query and fragment. -/
theorem urlunsplit_scheme_netloc (scheme netloc rest : String)
    (hs : scheme.data ≠ []) (hn : netloc.data ≠ []) :
    urlunsplit scheme netloc ("/" ++ rest) "" "" =
      scheme ++ ":" ++ ("//" ++ netloc ++ ("/" ++ rest)) := by
  unfold urlunsplit
  simp [String.data_append, hs, hn]

/-- The scheme of a URI string: the characters before the first `:`. -/
def schemeOf (uri : String) : String :=
  ⟨uri.data.takeWhile (fun c => c != ':')⟩

theorem takeWhile_append_cons {α : Type} (p : α → Bool) (l1 l2 : List α)
    (x : α) (h1 : ∀ a ∈ l1, p a = true) (hx : p x = false) :
    (l1 ++ x :: l2).takeWhile p = l1 := by
  induction l1 with
  | nil => simp [List.takeWhile_cons, hx]
  | cons a t ih =>
    simp only [List.cons_append, List.takeWhile_cons, h1 a (by simp)]
    rw [ih (fun b hb => h1 b (by simp [hb]))]
    simp

theorem schemeOf_append (s t : String)
    (hnc : ∀ c ∈ s.data, (c != ':') = true) :
    schemeOf (s ++ ":" ++ t) = s := by
  apply String.ext
  show ((s ++ ":" ++ t).data.takeWhile (fun c => c != ':')) = s.data
  rw [String.data_append, String.data_append,
    show (":" : String).data = [':'] from rfl, List.append_assoc]
  exact takeWhile_append_cons _ _ _ _ hnc (by decide)

theorem urlunsplit_eq_scheme_append (scheme netloc path : String)
    (hs : scheme.data ≠ []) :
    ∃ rest, urlunsplit scheme netloc path "" "" = scheme ++ ":" ++ rest := by
  unfold urlunsplit
  by_cases hb : netloc.data ≠ [] ∨ (path.data ≠ [] ∧ path.data.take 2 = ['/', '/'])
  · refine ⟨"//" ++ netloc ++
      (if path.data ≠ [] ∧ path.data.take 1 ≠ ['/'] then "/" ++ path else path), ?_⟩
    simp [hb, hs]
  · refine ⟨path, ?_⟩
    simp [hb, hs]

theorem schemeOf_urlunsplit (scheme netloc path : String)
    (hs : scheme.data ≠ []) (hnc : ∀ c ∈ scheme.data, (c != ':') = true) :
    schemeOf (urlunsplit scheme netloc path "" "") = scheme := by
  obtain ⟨rest, hre⟩ := urlunsplit_eq_scheme_append scheme netloc path hs
  rw [hre]
  exact schemeOf_append scheme rest hnc

theorem getConn_none (ge4 : Bool) (h : MongoHook) (hc : h.client = none) :
    getConn ge4 h = ({ uri := h.uri, options := sslShim ge4 h.extras },
      { h with client := some { uri := h.uri, options := sslShim ge4 h.extras },
               extras := sslShim ge4 h.extras }) := by
  unfold getConn
  rw [hc]

theorem dictGet_sslShim_ne (ge4 : Bool) (d : Dict) (k : String)
    (h1 : k ≠ "tlsAllowInvalidCertificates") (h2 : k ≠ "ssl_cert_reqs") :
    dictGet (sslShim ge4 d) k = dictGet d k := by
  unfold sslShim
  by_cases hssl : truthyGet d "ssl" = true <;> cases ge4 <;>
    simp [hssl, dictGet_dictUpdate_ne _ _ _ _ h1, dictGet_dictUpdate_ne _ _ _ _ h2]

theorem getD_truthy (extras : Dict) (k : String) :
    ((dictGet extras k).getD (.bool false)).truthy = truthyGet extras k := by
  unfold truthyGet
  cases dictGet extras k <;> simp [JVal.truthy]

/-! ### Claim theorems -/

/-- C1: for a connection record with login, password, host, a non-zero
port, a schema, and extra option `srv=true`, `_create_uri` yields exactly
`mongodb+srv://<quote_plus login>:<quote_plus password>@host:port/schema`:
scheme `mongodb+srv`, netloc `login:password@host:port` with percent-
encoded credentials, path `/schema`, and no query or fragment. -/
theorem createUri_srv_full_form (l p host schema : String) (port : Nat)
    (extras : Dict) (hport : port ≠ 0)
    (hsrv : dictGet extras "srv" = some (JVal.bool true)) :
    (createUri { host := host, port := some port, login := some l,
                 password := some p, schema := schema,
                 extraDejson := extras } extras).1 =
      "mongodb+srv://" ++ quotePlus l ++ ":" ++ quotePlus p ++ "@" ++ host
        ++ ":" ++ toString port ++ "/" ++ schema := by
  have step : (createUri { host := host, port := some port, login := some l,
                           password := some p, schema := schema,
                           extraDejson := extras } extras).1 =
      urlunsplit "mongodb+srv"
        (quotePlus l ++ ":" ++ quotePlus p ++ "@" ++ host ++ ":" ++ toString port)
        ("/" ++ schema) "" "" := by
    simp [createUri, hsrv, JVal.truthy, hport]
  rw [step, urlunsplit_scheme_netloc _ _ _ (by simp)
    (by simp [String.data_append])]
  apply String.ext
  simp [String.data_append, List.append_assoc]

/-- C4: the `srv` extra selects the addressing scheme of the built URI —
`mongodb+srv` when truthy, `mongodb` when absent or falsy; `_create_uri`
removes the `srv` key from the extras, and the options handed to the
`MongoClient` constructor by `get_conn` contain no `srv` key. -/
theorem srv_selects_scheme_and_is_removed (conn : Connection) (extras : Dict)
    (ge4 : Bool) (connId : String) :
    (truthyGet extras "srv" = true →
      schemeOf (createUri conn extras).1 = "mongodb+srv") ∧
    (truthyGet extras "srv" = false →
      schemeOf (createUri conn extras).1 = "mongodb") ∧
    dictGet (createUri conn extras).2 "srv" = none ∧
    dictGet (getConn ge4 (init connId conn)).1.options "srv" = none := by
  have hpop : (createUri conn extras).2 = dictPop extras "srv" := rfl
  refine ⟨?_, ?_, ?_, ?_⟩
  · intro htr
    unfold createUri
    dsimp only
    rw [getD_truthy, htr]
    simp only [if_true]
    exact schemeOf_urlunsplit _ _ _ (by decide) (by decide)
  · intro htr
    unfold createUri
    dsimp only
    rw [getD_truthy, htr]
    simp only [Bool.false_eq_true, if_false]
    exact schemeOf_urlunsplit _ _ _ (by decide) (by decide)
  · rw [hpop]
    exact dictGet_dictPop_self extras "srv"
  · have hinit : (init connId conn).extras = dictPop conn.extraDejson "srv" := rfl
    rw [getConn_none ge4 (init connId conn) rfl]
    show dictGet (sslShim ge4 (init connId conn).extras) "srv" = none
    rw [dictGet_sslShim_ne _ _ _ (by decide) (by decide), hinit]
    exact dictGet_dictPop_self _ _

/-- A sample connection record with no credentials and no `srv` extra. -/
def connPlain : Connection :=
  { host := "h", port := none, login := none, password := none,
    schema := "s", extraDejson := [("ssl", JVal.bool true)] }

/-- Witness for `srv_selects_scheme_and_is_removed` on concrete inputs. -/
theorem srv_selects_scheme_and_is_removed_witness :
    schemeOf (createUri connEx connEx.extraDejson).1 = "mongodb+srv" ∧
    schemeOf (createUri connPlain connPlain.extraDejson).1 = "mongodb" ∧
    dictGet (createUri connPlain connPlain.extraDejson).2 "srv" = none ∧
    dictGet (getConn false (init "c" connPlain)).1.options "srv" = none := by
  refine ⟨?_, ?_, ?_, ?_⟩
  · exact (srv_selects_scheme_and_is_removed connEx connEx.extraDejson true "c").1
      (by decide)
  · exact (srv_selects_scheme_and_is_removed connPlain connPlain.extraDejson
      true "c").2.1 (by decide)
  · exact (srv_selects_scheme_and_is_removed connPlain connPlain.extraDejson
      true "c").2.2.1
  · exact (srv_selects_scheme_and_is_removed connPlain connPlain.extraDejson
      false "c").2.2.2

/-- Witness for `createUri_srv_full_form` on concrete inputs. -/
theorem createUri_srv_full_form_witness :
    (27017 : Nat) ≠ 0 ∧
    dictGet [("srv", JVal.bool true)] "srv" = some (JVal.bool true) ∧
    (createUri connEx connEx.extraDejson).1 =
      "mongodb+srv://" ++ quotePlus "user" ++ ":" ++ quotePlus "pass"
        ++ "@" ++ "host" ++ ":" ++ toString (27017 : Nat) ++ "/" ++ "db" := by
  refine ⟨by decide, by decide, ?_⟩
  exact createUri_srv_full_form "user" "pass" "host" "db" 27017
    [("srv", JVal.bool true)] (by decide) (by decide)

/-- C2: for every hook, the client slot is `None` immediately after
construction; every `get_conn` call leaves the slot holding exactly the
client it returns; and when a client is already stored, `get_conn` returns
that identical handle with the hook state unchanged (no new client is
constructed). -/
theorem client_lazy_singleton (connId : String) (conn : Connection)
    (ge4 : Bool) (h : MongoHook) (c : MongoClient) :
    (init connId conn).client = none ∧
    (getConn ge4 h).2.client = some (getConn ge4 h).1 ∧
    (h.client = some c → getConn ge4 h = (c, h)) := by
  refine ⟨rfl, ?_, ?_⟩
  · rcases hc : h.client with _ | c' <;> simp [getConn, hc]
  · intro hc; simp [getConn, hc]

/-- Witness for `client_lazy_singleton` on concrete inputs. -/
theorem client_lazy_singleton_witness :
    (init "mongo_default" connEx).client = none ∧
    (getConn true hookOpenEx).2.client = some (getConn true hookOpenEx).1 ∧
    getConn true hookOpenEx = (clientEx, hookOpenEx) := by
  have h := client_lazy_singleton "mongo_default" connEx true hookOpenEx clientEx
  exact ⟨h.1, h.2.1, h.2.2 rfl⟩

/-- C3: `__exit__` (whatever the exception triple) closes an open client
exactly once and resets the slot to `None`; when no client is open it
changes nothing and closes nothing. -/
theorem exit_closes_once (e1 e2 e3 : Option Unit) (h : MongoHook)
    (c : MongoClient) :
    (h.client = some c →
      exitHook e1 e2 e3 h = ({ h with client := none }, [c])) ∧
    (h.client = none → exitHook e1 e2 e3 h = (h, [])) := by
  constructor
  · intro hc; simp [exitHook, hc]
  · intro hc; simp [exitHook, hc]

/-- Witness for `exit_closes_once` on concrete inputs. -/
theorem exit_closes_once_witness :
    exitHook (some ()) none none hookOpenEx
      = ({ hookOpenEx with client := none }, [clientEx]) ∧
    exitHook none none none hookEx = (hookEx, []) := by
  exact ⟨(exit_closes_once (some ()) none none hookOpenEx clientEx).1 rfl,
    (exit_closes_once none none none hookEx clientEx).2 rfl⟩

/-- C8: `get_collection` uses the connection record's schema as database
when `mongo_db` is `None` or the empty string, and uses `mongo_db` itself
when it is a non-empty string. -/
theorem getCollection_db_resolution (ge4 : Bool) (h : MongoHook)
    (coll : String) (mongoDb : Option String) (s : String) :
    ((mongoDb = none ∨ mongoDb = some "") →
      (getCollection ge4 h coll mongoDb).1.1 = h.connection.schema) ∧
    (mongoDb = some s → s ≠ "" →
      (getCollection ge4 h coll mongoDb).1.1 = s) := by
  constructor
  · rintro (rfl | rfl) <;> simp [getCollection, pyOrStr]
  · rintro rfl hs; simp [getCollection, pyOrStr, hs]

/-- Witness for `getCollection_db_resolution` on concrete inputs. -/
theorem getCollection_db_resolution_witness :
    (getCollection true hookEx "coll" (some "")).1.1 = "db" ∧
    (getCollection true hookEx "coll" (some "other")).1.1 = "other" := by
  refine ⟨?_, ?_⟩
  · have h := (getCollection_db_resolution true hookEx "coll" (some "") "x").1
      (Or.inr rfl)
    simpa using h
  · exact (getCollection_db_resolution true hookEx "coll" (some "other") "other").2
      rfl (by decide)

theorem getConn_uri (ge4 : Bool) (h : MongoHook) :
    (getConn ge4 h).2.uri = h.uri := by
  cases hc : h.client <;> simp [getConn, hc]

theorem getConn_of_some (ge4 : Bool) (h : MongoHook) (c : MongoClient)
    (hc : h.client = some c) : getConn ge4 h = (c, h) := by
  simp [getConn, hc]

/-- C7: on the call that constructs the client, `get_conn` hands the
constructor the stored URI together with options equal to the stored
extras — except that when `ssl` is truthy, `tlsAllowInvalidCertificates=
True` is added on pymongo >= 4.0.0 and `ssl_cert_reqs=CERT_NONE` below it —
and the options handed over persist as the hook's stored extras. -/
theorem getConn_options_and_shim (ge4 : Bool) (h : MongoHook)
    (hc : h.client = none) :
    (getConn ge4 h).1.uri = h.uri ∧
    (getConn ge4 h).2.extras = (getConn ge4 h).1.options ∧
    (truthyGet h.extras "ssl" = false → (getConn ge4 h).1.options = h.extras) ∧
    (truthyGet h.extras "ssl" = true →
      (ge4 = true →
        (getConn ge4 h).1.options =
          dictUpdate h.extras "tlsAllowInvalidCertificates" (.bool true)) ∧
      (ge4 = false →
        (getConn ge4 h).1.options =
          dictUpdate h.extras "ssl_cert_reqs" CERT_NONE)) := by
  rw [getConn_none ge4 h hc]
  refine ⟨rfl, rfl, ?_, ?_⟩
  · intro hssl
    show sslShim ge4 h.extras = h.extras
    simp [sslShim, hssl]
  · intro hssl
    constructor
    · rintro rfl
      show sslShim true h.extras = _
      simp [sslShim, hssl]
    · rintro rfl
      show sslShim false h.extras = _
      simp [sslShim, hssl]

/-- Witness for `getConn_options_and_shim` on concrete inputs. -/
theorem getConn_options_and_shim_witness :
    (getConn false (init "c" connPlain)).1.uri = (init "c" connPlain).uri ∧
    (getConn false (init "c" connPlain)).2.extras
      = (getConn false (init "c" connPlain)).1.options ∧
    (getConn false (init "c" connPlain)).1.options
      = dictUpdate (init "c" connPlain).extras "ssl_cert_reqs" CERT_NONE := by
  have h := getConn_options_and_shim false (init "c" connPlain) rfl
  exact ⟨h.1, h.2.1, (h.2.2.2 (by decide)).2 rfl⟩

/-- C5: `find` issues exactly one driver call on the selected collection —
`find_one(query, projection, **kwargs)` when `find_one=True`, else
`find(query, projection, **kwargs)` — and returns that call's outcome
unchanged. -/
theorem find_passthrough {e r : Type} (driver : DriverOp → Except e r)
    (ge4 : Bool) (h : MongoHook) (coll : String) (query : Doc) (fo : Bool)
    (mongoDb : Option String) (projection : Option Doc) (kwargs : Kwargs) :
    (fo = true →
      findM driver ge4 h coll query fo mongoDb projection kwargs =
        (driver (DriverOp.findOne (pyOrStr mongoDb h.connection.schema) coll
            query projection kwargs),
         (getConn ge4 h).2,
         [DriverOp.findOne (pyOrStr mongoDb h.connection.schema) coll query
            projection kwargs])) ∧
    (fo = false →
      findM driver ge4 h coll query fo mongoDb projection kwargs =
        (driver (DriverOp.find (pyOrStr mongoDb h.connection.schema) coll
            query projection kwargs),
         (getConn ge4 h).2,
         [DriverOp.find (pyOrStr mongoDb h.connection.schema) coll query
            projection kwargs])) := by
  constructor
  · rintro rfl
    rfl
  · rintro rfl
    rfl

/-- A concrete driver that fails every call, used in witnesses. -/
def failDriver : DriverOp → Except Nat Nat := fun _ => Except.error 7

/-- Witness for `find_passthrough` on concrete inputs. -/
theorem find_passthrough_witness :
    findM failDriver true hookEx "coll" [] true none none [] =
      (failDriver (DriverOp.findOne (pyOrStr none hookEx.connection.schema)
          "coll" [] none []),
       (getConn true hookEx).2,
       [DriverOp.findOne (pyOrStr none hookEx.connection.schema) "coll" []
          none []]) ∧
    findM failDriver true hookEx "coll" [] false none none [] =
      (failDriver (DriverOp.find (pyOrStr none hookEx.connection.schema)
          "coll" [] none []),
       (getConn true hookEx).2,
       [DriverOp.find (pyOrStr none hookEx.connection.schema) "coll" []
          none []]) := by
  exact ⟨(find_passthrough failDriver true hookEx "coll" [] true none none []).1 rfl,
    (find_passthrough failDriver true hookEx "coll" [] false none none []).2 rfl⟩

/-- C9: when `filter_doc` is falsy (`None` or `{}`), `replace_one` uses
`{"_id": doc["_id"]}` as the filter handed to the driver; this requires
`doc` to contain an `_id` key, and when `_id` is missing the call raises a
`KeyError` before any driver call is issued. -/
theorem replaceOne_default_filter {e r : Type} (driver : DriverOp → Except e r)
    (keyError : String → e) (ge4 : Bool) (h : MongoHook) (coll : String)
    (doc : Doc) (filterDoc : Option Doc) (mongoDb : Option String)
    (kwargs : Kwargs) (hfalsy : filterDoc = none ∨ filterDoc = some []) :
    (∀ v, dictGet doc "_id" = some v →
      replaceOneM driver keyError ge4 h coll doc filterDoc mongoDb kwargs =
        (driver (DriverOp.replaceOne (pyOrStr mongoDb h.connection.schema)
            coll [("_id", v)] doc kwargs),
         (getConn ge4 h).2,
         [DriverOp.replaceOne (pyOrStr mongoDb h.connection.schema) coll
            [("_id", v)] doc kwargs])) ∧
    (dictGet doc "_id" = none →
      replaceOneM driver keyError ge4 h coll doc filterDoc mongoDb kwargs =
        (Except.error (keyError "_id"), (getConn ge4 h).2, [])) := by
  constructor
  · intro v hv
    rcases hfalsy with rfl | rfl <;> simp [replaceOneM, getCollection, hv]
  · intro hv
    rcases hfalsy with rfl | rfl <;> simp [replaceOneM, getCollection, hv]

/-- A sample document with an `_id` field. -/
def docEx : Doc := [("_id", JVal.num 1), ("x", JVal.str "a")]

/-- A sample document without an `_id` field. -/
def docNoId : Doc := [("y", JVal.num 2)]

/-- Witness for `replaceOne_default_filter` on concrete inputs. -/
theorem replaceOne_default_filter_witness :
    replaceOneM failDriver (fun _ => 1) true hookEx "c" docEx none none [] =
      (failDriver (DriverOp.replaceOne (pyOrStr none hookEx.connection.schema)
          "c" [("_id", JVal.num 1)] docEx []),
       (getConn true hookEx).2,
       [DriverOp.replaceOne (pyOrStr none hookEx.connection.schema) "c"
          [("_id", JVal.num 1)] docEx []]) ∧
    replaceOneM failDriver (fun _ => 1) true hookEx "c" docNoId (some []) none [] =
      (Except.error 1, (getConn true hookEx).2, []) := by
  exact ⟨(replaceOne_default_filter failDriver (fun _ => 1) true hookEx "c"
      docEx none none [] (Or.inl rfl)).1 (JVal.num 1) rfl,
    (replaceOne_default_filter failDriver (fun _ => 1) true hookEx "c"
      docNoId (some []) none [] (Or.inr rfl)).2 rfl⟩

/-- The error-propagation contract of one forwarding operation run from
hook state `h`: the resulting state keeps the URI; the client slot is
untouched whenever a client was already stored (the whole state is then
unchanged); and if every driver call the operation issued raised `e`, and
at least one was issued, then the operation raises exactly `e`. -/
def errorContract {e r : Type} (driver : DriverOp → Except e r) (err : e)
    (h : MongoHook) (res : OpResult e r) : Prop :=
  res.2.1.uri = h.uri ∧
  (∀ c, h.client = some c → res.2.1 = h) ∧
  ((∀ o ∈ res.2.2, driver o = Except.error err) → res.2.2 ≠ [] →
    res.1 = Except.error err)

theorem errorContract_of_shape {e r : Type} (driver : DriverOp → Except e r)
    (err : e) (ge4 : Bool) (h : MongoHook) (res : OpResult e r)
    (hst : res.2.1 = (getConn ge4 h).2)
    (hsh : res.2.2 = [] ∨ ∃ op, res.2.2 = [op] ∧ res.1 = driver op) :
    errorContract driver err h res := by
  refine ⟨by rw [hst]; exact getConn_uri ge4 h, ?_, ?_⟩
  · intro c hc
    rw [hst, getConn_of_some ge4 h c hc]
  · intro hall hne
    rcases hsh with hnil | ⟨op, htr, hres⟩
    · exact absurd hnil hne
    · rw [hres]
      exact hall op (by rw [htr]; simp)

/-- C6 (amended): for every forwarding operation (aggregate, find,
insert_one/many, update_one/many, replace_one/many, delete_one/many), a
raising driver call is propagated as that same error unchanged — the
operation issues at most one driver call, with no retry, translation or
recovery — and the stored URI is never changed; when a client handle was
already open, the whole hook state is unchanged.  (The original claim's
"client slot left unchanged" fails for a first operation, which leaves the
newly created client stored even when the driver call raises; see
`ops_error_counterexample`.) -/
theorem ops_error_passthrough {e r : Type} (driver : DriverOp → Except e r)
    (keyError : String → e) (indexError : e) (ge4 : Bool) (err : e) :
    (∀ h coll q db kw,
      errorContract driver err h (aggregateM driver ge4 h coll q db kw)) ∧
    (∀ h coll q fo db proj kw,
      errorContract driver err h (findM driver ge4 h coll q fo db proj kw)) ∧
    (∀ h coll doc db kw,
      errorContract driver err h (insertOneM driver ge4 h coll doc db kw)) ∧
    (∀ h coll docs db kw,
      errorContract driver err h (insertManyM driver ge4 h coll docs db kw)) ∧
    (∀ h coll fd ud db kw,
      errorContract driver err h (updateOneM driver ge4 h coll fd ud db kw)) ∧
    (∀ h coll fd ud db kw,
      errorContract driver err h (updateManyM driver ge4 h coll fd ud db kw)) ∧
    (∀ h coll doc fd db kw,
      errorContract driver err h
        (replaceOneM driver keyError ge4 h coll doc fd db kw)) ∧
    (∀ h coll docs fds db up colla kw,
      errorContract driver err h
        (replaceManyM driver keyError indexError ge4 h coll docs fds db up colla kw)) ∧
    (∀ h coll fd db kw,
      errorContract driver err h (deleteOneM driver ge4 h coll fd db kw)) ∧
    (∀ h coll fd db kw,
      errorContract driver err h (deleteManyM driver ge4 h coll fd db kw)) := by
  refine ⟨?_, ?_, ?_, ?_, ?_, ?_, ?_, ?_, ?_, ?_⟩
  · intro h coll q db kw
    exact errorContract_of_shape driver err ge4 h _ rfl (Or.inr ⟨_, rfl, rfl⟩)
  · intro h coll q fo db proj kw
    exact errorContract_of_shape driver err ge4 h _ rfl (Or.inr ⟨_, rfl, rfl⟩)
  · intro h coll doc db kw
    exact errorContract_of_shape driver err ge4 h _ rfl (Or.inr ⟨_, rfl, rfl⟩)
  · intro h coll docs db kw
    exact errorContract_of_shape driver err ge4 h _ rfl (Or.inr ⟨_, rfl, rfl⟩)
  · intro h coll fd ud db kw
    exact errorContract_of_shape driver err ge4 h _ rfl (Or.inr ⟨_, rfl, rfl⟩)
  · intro h coll fd ud db kw
    exact errorContract_of_shape driver err ge4 h _ rfl (Or.inr ⟨_, rfl, rfl⟩)
  · intro h coll doc fd db kw
    unfold replaceOneM
    dsimp only
    split
    · exact errorContract_of_shape driver err ge4 h _ rfl (Or.inl rfl)
    · exact errorContract_of_shape driver err ge4 h _ rfl (Or.inr ⟨_, rfl, rfl⟩)
  · intro h coll docs fds db up colla kw
    unfold replaceManyM
    dsimp only
    split
    · exact errorContract_of_shape driver err ge4 h _ rfl (Or.inl rfl)
    · split
      · exact errorContract_of_shape driver err ge4 h _ rfl (Or.inl rfl)
      · exact errorContract_of_shape driver err ge4 h _ rfl (Or.inr ⟨_, rfl, rfl⟩)
  · intro h coll fd db kw
    exact errorContract_of_shape driver err ge4 h _ rfl (Or.inr ⟨_, rfl, rfl⟩)
  · intro h coll fd db kw
    exact errorContract_of_shape driver err ge4 h _ rfl (Or.inr ⟨_, rfl, rfl⟩)

/-- C6 counterexample: a failed operation does not leave the client slot
unchanged in general — on a hook with no client yet, the operation
propagates the driver's error but a newly constructed client stays stored
in the slot. -/
theorem ops_error_counterexample :
    (aggregateM failDriver true hookEx "coll" [] none []).1 = Except.error 7 ∧
    hookEx.client = none ∧
    (aggregateM failDriver true hookEx "coll" [] none []).2.1.client ≠ none := by
  refine ⟨rfl, rfl, ?_⟩
  decide

/-- Witness for `ops_error_passthrough` on concrete inputs. -/
theorem ops_error_passthrough_witness :
    (aggregateM failDriver true hookOpenEx "coll" [] none []).2.1 = hookOpenEx ∧
    (aggregateM failDriver true hookOpenEx "coll" [] none []).1
      = Except.error 7 := by
  have h := (ops_error_passthrough failDriver (fun _ => 1) 2 true 7).1
    hookOpenEx "coll" [] none []
  exact ⟨h.2.1 clientEx rfl, h.2.2 (fun o _ => rfl) (by decide)⟩

theorem exceptMap_ok {e α β : Type} (f : α → Except e β) (g : α → β)
    (l : List α) (hok : ∀ a ∈ l, f a = Except.ok (g a)) :
    exceptMap f l = Except.ok (l.map g) := by
  induction l with
  | nil => rfl
  | cons a t ih =>
    simp only [exceptMap, hok a (by simp), List.map_cons]
    rw [ih (fun b hb => hok b (by simp [hb]))]

theorem exceptMap_error {e α β : Type} (f : α → Except e β) (l1 l2 : List α)
    (x : α) (err : e) (hok : ∀ a ∈ l1, ∃ b, f a = Except.ok b)
    (hx : f x = Except.error err) :
    exceptMap f (l1 ++ x :: l2) = Except.error err := by
  induction l1 with
  | nil => simp [exceptMap, hx]
  | cons a t ih =>
    obtain ⟨b, hb⟩ := hok a (by simp)
    have ih' := ih (fun c hc => hok c (by simp [hc]))
    simp only [List.cons_append, exceptMap, hb, List.append_eq, ih']

theorem range_split (m n : Nat) :
    m < n → ∃ l2, List.range n = List.range m ++ m :: l2 := by
  induction n with
  | zero => intro hmn; omega
  | succ n ih =>
    intro hmn
    rcases Nat.lt_succ_iff_lt_or_eq.mp hmn with h' | rfl
    · obtain ⟨l2, hl⟩ := ih h'
      refine ⟨l2 ++ [n], ?_⟩
      rw [List.range_succ, hl]
      simp
    · refine ⟨[], ?_⟩
      rw [List.range_succ]

/-- The requests built by `replace_many`: request `i` pairs
`filter_docs[i]` with `docs[i]` and carries the given `upsert` and
`collation`. -/
def pairedReqs (fds docs : List Doc) (up : Bool) (colla : Option String) :
    List ReplaceOneReq :=
  (List.range docs.length).map (fun i =>
    { filterDoc := fds.getD i [], doc := docs.getD i [],
      upsert := up, collation := colla })

/-- The `{"_id": doc["_id"]}` filter derived from a document (the `getD`
default is unreachable when the document has an `_id` key). -/
def idFilter (d : Doc) : Doc := [("_id", (dictGet d "_id").getD JVal.null)]

/-- C10: `replace_many` on `docs` of length `n` builds exactly `n`
`ReplaceOne` requests — request `i` pairing `docs[i]` with
`filter_docs[i]`, each carrying the given `upsert` and `collation` — and
submits them in one `bulk_write` whose outcome it returns; when
`filter_docs` is falsy the filters are derived as `{"_id": doc["_id"]}`
per doc (requiring every doc to contain `_id`); and a non-empty
`filter_docs` shorter than `docs` raises an `IndexError` before any
driver write is issued. -/
theorem replaceMany_requests {e r : Type} (driver : DriverOp → Except e r)
    (keyError : String → e) (indexError : e) (ge4 : Bool) (h : MongoHook)
    (coll : String) (docs : List Doc) (filterDocs : Option (List Doc))
    (mongoDb : Option String) (up : Bool) (colla : Option String)
    (kw : Kwargs) :
    (∀ fds, (pairedReqs fds docs up colla).length = docs.length) ∧
    (∀ fds, filterDocs = some fds → fds ≠ [] → docs.length ≤ fds.length →
      replaceManyM driver keyError indexError ge4 h coll docs filterDocs
          mongoDb up colla kw =
        (driver (DriverOp.bulkWrite (pyOrStr mongoDb h.connection.schema)
            coll (pairedReqs fds docs up colla) kw),
         (getConn ge4 h).2,
         [DriverOp.bulkWrite (pyOrStr mongoDb h.connection.schema) coll
            (pairedReqs fds docs up colla) kw])) ∧
    ((filterDocs = none ∨ filterDocs = some []) →
      (∀ d ∈ docs, ∃ v, dictGet d "_id" = some v) →
      replaceManyM driver keyError indexError ge4 h coll docs filterDocs
          mongoDb up colla kw =
        (driver (DriverOp.bulkWrite (pyOrStr mongoDb h.connection.schema)
            coll (pairedReqs (docs.map idFilter) docs up colla) kw),
         (getConn ge4 h).2,
         [DriverOp.bulkWrite (pyOrStr mongoDb h.connection.schema) coll
            (pairedReqs (docs.map idFilter) docs up colla) kw])) ∧
    (∀ fds, filterDocs = some fds → fds ≠ [] → fds.length < docs.length →
      replaceManyM driver keyError indexError ge4 h coll docs filterDocs
          mongoDb up colla kw =
        (Except.error indexError, (getConn ge4 h).2, [])) := by
  have hbuild : ∀ fdsL : List Doc, docs.length ≤ fdsL.length →
      exceptMap (fun i =>
        match fdsL[i]? with
        | some f =>
          Except.ok { filterDoc := f, doc := (docs[i]?).getD [],
                      upsert := up, collation := colla }
        | none => Except.error indexError) (List.range docs.length)
        = Except.ok (pairedReqs fdsL docs up colla) := by
    intro fdsL hlen
    unfold pairedReqs
    apply exceptMap_ok
    intro i hi
    have hi' : i < docs.length := List.mem_range.mp hi
    have hif : i < fdsL.length := Nat.lt_of_lt_of_le hi' hlen
    rw [List.getElem?_eq_getElem hif]
    simp [List.getD_eq_getElem?_getD, List.getElem?_eq_getElem, hif, hi']
  refine ⟨?_, ?_, ?_, ?_⟩
  · intro fds
    simp [pairedReqs]
  · intro fdsL hfd hne hlen
    subst hfd
    unfold replaceManyM
    dsimp only
    rw [Option.getD_some, if_neg hne]
    dsimp only
    rw [hbuild fdsL hlen]
    rfl
  · intro hfalsy hids
    have hder : exceptMap (fun d =>
        match dictGet d "_id" with
        | some v => Except.ok [("_id", v)]
        | none => Except.error (keyError "_id")) docs
        = Except.ok (docs.map idFilter) := by
      apply exceptMap_ok
      intro d hd
      obtain ⟨v, hv⟩ := hids d hd
      simp [idFilter, hv]
    have hlen2 : docs.length ≤ (docs.map idFilter).length := by simp
    rcases hfalsy with rfl | rfl
    · unfold replaceManyM
      dsimp only
      rw [Option.getD_none, if_pos rfl]
      rw [hder]
      dsimp only
      rw [hbuild (docs.map idFilter) hlen2]
      rfl
    · unfold replaceManyM
      dsimp only
      rw [Option.getD_some, if_pos rfl]
      rw [hder]
      dsimp only
      rw [hbuild (docs.map idFilter) hlen2]
      rfl
  · intro fdsL hfd hne hlt
    subst hfd
    have herr : exceptMap (fun i =>
        match fdsL[i]? with
        | some f =>
          Except.ok ({ filterDoc := f, doc := (docs[i]?).getD [],
                       upsert := up, collation := colla } : ReplaceOneReq)
        | none => Except.error indexError) (List.range docs.length)
        = Except.error indexError := by
      obtain ⟨l2, hl⟩ := range_split fdsL.length docs.length hlt
      rw [hl]
      apply exceptMap_error
      · intro i hi
        have hi' : i < fdsL.length := List.mem_range.mp hi
        exact ⟨_, by rw [List.getElem?_eq_getElem hi']⟩
      · rw [List.getElem?_eq_none (Nat.le_refl _)]
    unfold replaceManyM
    dsimp only
    rw [Option.getD_some, if_neg hne]
    dsimp only
    rw [herr]
    rfl

/-- Sample documents for the `replace_many` witness. -/
def docsEx : List Doc := [[("_id", JVal.num 1)], [("_id", JVal.num 2)]]

/-- Witness for `replaceMany_requests` on concrete inputs. -/
theorem replaceMany_requests_witness :
    (pairedReqs [] docsEx false none).length = docsEx.length ∧
    replaceManyM failDriver (fun _ => 1) 2 true hookEx "c" docsEx none none
        false none [] =
      (failDriver (DriverOp.bulkWrite (pyOrStr none hookEx.connection.schema)
          "c" (pairedReqs (docsEx.map idFilter) docsEx false none) []),
       (getConn true hookEx).2,
       [DriverOp.bulkWrite (pyOrStr none hookEx.connection.schema) "c"
          (pairedReqs (docsEx.map idFilter) docsEx false none) []]) ∧
    replaceManyM failDriver (fun _ => 1) 2 true hookEx "c" docsEx
        (some [[("_id", JVal.num 9)]]) none false none [] =
      (Except.error 2, (getConn true hookEx).2, []) := by
  have hm1 := replaceMany_requests failDriver (fun _ => 1) 2 true hookEx "c"
    docsEx none none false none []
  have hm2 := replaceMany_requests failDriver (fun _ => 1) 2 true hookEx "c"
    docsEx (some [[("_id", JVal.num 9)]]) none false none []
  refine ⟨hm1.1 [], hm1.2.2.1 (Or.inl rfl) ?_,
    hm2.2.2.2 [[("_id", JVal.num 9)]] rfl (by decide) (by decide)⟩
  intro d hd
  simp only [docsEx, List.mem_cons, List.not_mem_nil, or_false] at hd
  rcases hd with rfl | rfl
  · exact ⟨JVal.num 1, rfl⟩
  · exact ⟨JVal.num 2, rfl⟩

end MongoSpec
